import Mathlib

/-!
Shallow embedding of the blendin-plugins repository (Docusaurus/GitBook
translation plugins): the API client (src/docusaurus/types.ts), the
translation-job orchestration, polling and file-copy utilities
(src/unnamed/part_000), and the theorems settling the frozen claims.

Machine conventions: the file system is modelled as explicit state
(`String → String` for reads, an `FsState` record for writes), network
transports are modelled as functions from requests to outcomes, and every
side-effecting routine returns the ordered list of effects it performs.
-/

namespace Blendin

/-- JSON values, as produced by `response.json()` and consumed by
`JSON.stringify`. Numbers are modelled as integers (all counts and ids in
this program are integral). -/
inductive Json where
  | null
  | bool (b : Bool)
  | num (n : Int)
  | str (s : String)
  | arr (items : List Json)
  | obj (fields : List (String × Json))

/-- Field access `j.k` on a parsed JSON value: `some` the field's value when
`j` is an object containing key `k`, otherwise `none` (JS `undefined`). -/
def jsonLookup (j : Json) (k : String) : Option Json :=
  match j with
  | .obj fields => (fields.find? (fun kv => kv.1 == k)).map (fun kv => kv.2)
  | _ => none

/-- From src/docusaurus/types.ts: the base API URL. In the source it falls
back from the environment variable BLENDIN_CLI_API_URL to this production
endpoint; we model the default (environment unset). -/
def BLENDIN_CLI_API_URL : String :=
  "https://blendinapi-production-959c8e72f5be.herokuapp.com"

/-- From src/docusaurus/types.ts: `APIClientConfig`: optional API token. -/
structure APIClientConfig where
  apiToken : Option String
deriving DecidableEq

/-- Request options (the parts of JS `RequestInit` this program uses):
extra headers supplied by the caller. -/
structure RequestOptions where
  headers : List (String × String)
deriving DecidableEq

/-- A request as handed to the underlying `fetch` transport. The body
carries the JSON payload (serialization by JSON.stringify is a transport
detail the claims do not touch). -/
structure Request where
  url : String
  method : String
  headers : List (String × String)
  body : Option Json

/-- What the raw transport returns for a request: the body as a JSON parse
result (`response.json()` can fail), plus status metadata. -/
structure HttpResponse where
  bodyJson : Except String Json
  status : Nat
  statusText : String
  headers : List (String × String)

/-- Behaviour of the underlying `fetch` transport on one request:
it responds after `t` milliseconds, fails after `t` milliseconds, or never
settles at all. -/
inductive TransportOutcome where
  | respondsAt (t : Nat) (r : HttpResponse)
  | failsAt (t : Nat) (e : String)
  | silent

/-- A transport double: the behaviour of `fetch` per request. -/
def Transport : Type := Request → TransportOutcome

/-- The error kinds an API-client call can fail with. The timeout path
constructs its own error (`new Error('Request timed out')`), distinct from
the transport error forwarded by the catch branch and from a JSON-parse
failure of the body. -/
inductive ClientError where
  | timeout (msg : String)
  | network (msg : String)
  | parse (msg : String)
deriving DecidableEq

/-- From src/docusaurus/types.ts (`createAPIClient`): the fixed request
timeout, in milliseconds. -/
def timeout : Nat := 30000

/-- From src/docusaurus/types.ts: `fetchWithTimeout(url, options, timeout)`
races `fetch` against a timer that rejects with `Error('Request timed
out')` after `timeoutMs`. If the transport settles strictly before the
timer fires its result (or failure) wins; otherwise the timer's rejection
wins. -/
def fetchWithTimeout (transport : Transport) (req : Request)
    (timeoutMs : Nat) : Except ClientError HttpResponse :=
  match transport req with
  | .respondsAt t r =>
      if t < timeoutMs then .ok r else .error (.timeout "Request timed out")
  | .failsAt t e =>
      if t < timeoutMs then .error (.network e)
      else .error (.timeout "Request timed out")
  | .silent => .error (.timeout "Request timed out")

/-- The response shape returned to callers
(src/docusaurus/types.ts `FetchResponse`). -/
structure FetchResponse where
  data : Json
  status : Nat
  statusText : String
  headers : List (String × String)

/-- The synthetic response returned when no API token is configured:
`{data: {}, status: 401, statusText: 'Unauthorized', headers: new
Headers()}`. -/
def unauthorizedResponse : FetchResponse :=
  { data := .obj [], status := 401, statusText := "Unauthorized", headers := [] }

/-- Headers attached to an authenticated request: the caller's headers
spread first, then `Content-Type` and `X-API-Token` (object spread: the
later keys win on lookup). -/
def mergedHeaders (config : Option RequestOptions) (apiToken : String) :
    List (String × String) :=
  ((config.map (fun c => c.headers)).getD []) ++
    [("Content-Type", "application/json"), ("X-API-Token", apiToken)]

/-- The request `authenticatedGet` hands to the transport: base URL plus
path, method GET, merged headers. -/
def getRequest (apiToken url : String) (config : Option RequestOptions) :
    Request :=
  { url := BLENDIN_CLI_API_URL ++ url
    method := "GET"
    headers := mergedHeaders config apiToken
    body := none }

/-- The request `authenticatedPost` hands to the transport: base URL plus
path, method POST, merged headers, JSON body. -/
def postRequest (apiToken url : String) (data : Json)
    (config : Option RequestOptions) : Request :=
  { url := BLENDIN_CLI_API_URL ++ url
    method := "POST"
    headers := mergedHeaders config apiToken
    body := some data }

/-- From src/docusaurus/types.ts: `authenticatedGet(url, config)`.
Returns the call's result together with the ordered list of requests
actually handed to the transport (empty when the token guard
short-circuits). With a token it issues exactly one request to
`baseURL + url`; without one it resolves to the synthetic 401 response and
the transport is never invoked. -/
def authenticatedGet (apiClientConfig : APIClientConfig)
    (transport : Transport) (url : String) (config : Option RequestOptions) :
    Except ClientError FetchResponse × List Request :=
  let apiToken := apiClientConfig.apiToken.getD ""
  if apiToken ≠ "" then
    let req := getRequest apiToken url config
    match fetchWithTimeout transport req timeout with
    | .ok r =>
        match r.bodyJson with
        | .ok d =>
            (.ok { data := d, status := r.status, statusText := r.statusText,
                   headers := r.headers }, [req])
        | .error e => (.error (.parse e), [req])
    | .error e => (.error e, [req])
  else
    (.ok unauthorizedResponse, [])

/-- From src/docusaurus/types.ts: `authenticatedPost(url, data, config)`.
Same guard and timeout as `authenticatedGet`, with method POST and the
JSON payload as body. -/
def authenticatedPost (apiClientConfig : APIClientConfig)
    (transport : Transport) (url : String) (data : Json)
    (config : Option RequestOptions) :
    Except ClientError FetchResponse × List Request :=
  let apiToken := apiClientConfig.apiToken.getD ""
  if apiToken ≠ "" then
    let req := postRequest apiToken url data config
    match fetchWithTimeout transport req timeout with
    | .ok r =>
        match r.bodyJson with
        | .ok d =>
            (.ok { data := d, status := r.status, statusText := r.statusText,
                   headers := r.headers }, [req])
        | .error e => (.error (.parse e), [req])
    | .error e => (.error e, [req])
  else
    (.ok unauthorizedResponse, [])

/-! Content hashing (src/unnamed/part_000, `getFilesMetadata`): the
fingerprint of a file is `generateStringHash({text: fileContent.trim()})`. -/

/-- JS `String.prototype.trim` whitespace test (the ASCII white-space and
line-terminator code points this program can meet; the claims only exercise
a trailing newline). -/
def isJsWhitespace (c : Char) : Bool :=
  c = ' ' || c = '\t' || c = '\n' || c = '\r' || c = '\x0b' || c = '\x0c'

/-- JS `trim` on a character list: drop white-space from the front, then
from the back. -/
def jsTrimList (l : List Char) : List Char :=
  let l1 := l.dropWhile isJsWhitespace
  ((l1.reverse.dropWhile isJsWhitespace)).reverse

/-- JS `String.prototype.trim`: strips leading and trailing whitespace. -/
def jsTrim (s : String) : String :=
  String.mk (jsTrimList s.data)

/-- Modelled from the spec: `generateStringHash` is imported from the
external package sdk-js, whose code is not under src/. The spec fixes
its contract: a deterministic "digest of trimmed file content used to
detect changes" — the same content always yields the same fingerprint and
distinct contents yield distinct fingerprints (spec sections 3, 8 and the
glossary). We model it as an injective deterministic encoding of the text,
the idealization of a collision-free digest. -/
def generateStringHash (text : String) : String :=
  "blendin-digest:" ++ text

/-- The hashing step of `getFilesMetadata`:
`generateStringHash({text: fileContent.trim()})`. -/
def fileContentHash (fileContent : String) : String :=
  generateStringHash (jsTrim fileContent)

/-- From src/docusaurus/types.ts: `FileMetadata`. -/
structure FileMetadata where
  sourceFilePath : String
  fileHash : String
deriving DecidableEq

/-- From src/unnamed/part_000: `getFilesMetadata(filePaths)` reads each
file, hashes its trimmed content, and collects `{sourceFilePath, fileHash}`
records in order. The file system is the explicit read map `fs`. -/
def getFilesMetadata (fs : String → String) (filePaths : List String) :
    List FileMetadata :=
  filePaths.map (fun filePath =>
    { sourceFilePath := filePath, fileHash := fileContentHash (fs filePath) })

/-! The Blendin configuration record, as consumed by executeTranslation and
pullTranslations via optional chaining (`blendinConfig.project?.projectId`,
`blendinConfig.locales?.targetLocales`, ...). The field shapes follow the
validation schema in src/docusaurus/types.ts and the accesses in
src/unnamed/part_000. -/

structure BlendinProject where
  projectId : String
  apiToken : String
deriving DecidableEq

structure BlendinLocales where
  defaultLocale : String
  sourceLocale : Option String
  targetLocales : List String
deriving DecidableEq

structure BlendinParsing where
  sourceFilePaths : List String
  translationsSavePath : Option String
deriving DecidableEq

structure BlendinConfig where
  project : Option BlendinProject
  locales : Option BlendinLocales
  parsing : Option BlendinParsing
deriving DecidableEq

/-- The plan request body built in `executeTranslation`
(src/unnamed/part_000, lines 357-362). -/
structure TranslationJobPlanPostData where
  project_uuid : Option String
  source_locale_iso : Option String
  target_locale_isos : Option (List String)
  files_metadata : List FileMetadata

/-- The body of the plan POST, exactly as `executeTranslation` assembles
it: each field read off the configuration by optional chaining, and
`files_metadata` from `getFilesMetadata(parsing?.sourceFilePaths || [])`. -/
def translationJobPlanPostData (blendinConfig : BlendinConfig)
    (fs : String → String) : TranslationJobPlanPostData :=
  { project_uuid := blendinConfig.project.map (fun p => p.projectId)
    source_locale_iso := blendinConfig.locales.bind (fun l => l.sourceLocale)
    target_locale_isos := blendinConfig.locales.map (fun l => l.targetLocales)
    files_metadata :=
      getFilesMetadata fs
        ((blendinConfig.parsing.map (fun p => p.sourceFilePaths)).getD []) }

/-! JSON.stringify with indent 2, used by `pullTranslations`
(`JSON.stringify(translationsObject, null, 2)`). -/

/-- Escape one character for a JSON string literal. -/
def escapeJsonChar (c : Char) : String :=
  if c = '"' then "\\\""
  else if c = '\\' then "\\\\"
  else if c = '\n' then "\\n"
  else if c = '\t' then "\\t"
  else if c = '\r' then "\\r"
  else String.singleton c

/-- Escape a string for a JSON string literal. -/
def escapeJsonString (s : String) : String :=
  String.join (s.data.map escapeJsonChar)

/-- `n` spaces of indentation. -/
def indentSpaces (n : Nat) : String :=
  String.join (List.replicate n " ")

/-- Render a JSON value at nesting depth `depth`, two spaces of indent per
level — the shape produced by `JSON.stringify(v, null, 2)`. -/
def renderJsonPretty (depth : Nat) (v : Json) : String :=
  match v with
  | .null => "null"
  | .bool b => if b then "true" else "false"
  | .num n => toString n
  | .str s => "\"" ++ escapeJsonString s ++ "\""
  | .arr [] => "[]"
  | .arr items =>
      "[\n" ++
        String.intercalate ",\n"
          (items.attach.map (fun x =>
            indentSpaces (2 * (depth + 1)) ++
              renderJsonPretty (depth + 1) x.1)) ++
        "\n" ++ indentSpaces (2 * depth) ++ "]"
  | .obj [] => "\x7b\x7d"
  | .obj fields =>
      "\x7b\n" ++
        String.intercalate ",\n"
          (fields.attach.map (fun f =>
            indentSpaces (2 * (depth + 1)) ++ "\"" ++
              escapeJsonString f.1.1 ++ "\": " ++
              renderJsonPretty (depth + 1) f.1.2)) ++
        "\n" ++ indentSpaces (2 * depth) ++ "\x7d"
termination_by sizeOf v
decreasing_by
  · have := List.sizeOf_lt_of_mem x.2
    simp
    omega
  · obtain ⟨⟨k, j⟩, hm⟩ := f
    have := List.sizeOf_lt_of_mem hm
    simp at this ⊢
    omega

/-- `JSON.stringify(v, null, 2)`: pretty-printed JSON. -/
def jsonStringifyPretty (v : Json) : String :=
  renderJsonPretty 0 v

/-! Paths and the writable file-system state. -/

/-- `path.join` on already-normal segments: intercalate the POSIX
separator (normalization of dots and duplicate separators is not exercised
by this program's inputs). -/
def pathJoin (segments : List String) : String :=
  String.intercalate "/" segments

/-- A path is absolute when it starts with the POSIX separator. -/
def isAbsolutePath (p : String) : Bool :=
  p.data.head? == some '/'

/-- `path.resolve(a, b)` relative to the working directory `cwd`: the
rightmost absolute segment wins; empty segments are ignored; otherwise the
segments are chained onto `cwd`. -/
def pathResolve (cwd a b : String) : String :=
  let base := if isAbsolutePath a then a else if a = "" then cwd
    else cwd ++ "/" ++ a
  if isAbsolutePath b then b else if b = "" then base else base ++ "/" ++ b

/-- Writable file-system state: file contents (none = absent) and the set
of existing directories. -/
structure FsState where
  files : String → Option String
  dirs : List String

/-- The side effects the orchestration performs, in order: API-client
calls, console output, directory creation and file writes. -/
inductive Effect where
  | apiPost (url : String) (body : TranslationJobPlanPostData)
  | apiGet (url : String)
  | consoleLog (s : String)
  | consoleLogJson (j : Json)
  | mkdirRecursive (path : String)
  | writeFile (path : String) (content : String)

/-- From src/unnamed/part_000: `executeTranslation(blendinConfig)`. The
shipped function computes the files metadata, POSTs the plan request and
logs the response; the confirmation / job-creation / polling / pull steps
(its Steps 2-6) are commented out in the source, so the effect trace ends
after the two logs. `fs` is the read file system and `planResponse` the
response the plan POST resolves with. -/
def executeTranslation (blendinConfig : BlendinConfig)
    (fs : String → String) (planResponse : FetchResponse) : List Effect :=
  let postData := translationJobPlanPostData blendinConfig fs
  [ .apiPost "/translation-jobs/generate-plan-from-entire-files" postData,
    .consoleLog "GOT TRANSLATION JOB PLAN RESPONSE",
    .consoleLogJson planResponse.data ]

/-- From src/unnamed/part_000: `pullTranslations(configDir, blendinConfig,
apiClient)`. Resolves the save path, GETs the project's translations
object (note: the source prepends BLENDIN_CLI_API_URL to the path it hands
the client), creates the save directory when absent, and writes
`translations.json` pretty-printed. `st` is the writable file-system
state; `response` is what the GET resolves with. When the response data
has no `translations_object` field the JS value is `undefined` and the
write would throw at runtime; the model records the interpolated string.
Returns the effect trace and the updated file-system state. -/
def pullTranslations (cwd configDir : String)
    (blendinConfig : BlendinConfig) (st : FsState)
    (response : FetchResponse) : List Effect × FsState :=
  let fileName := "translations.json"
  let translationsSavePath :=
    pathResolve cwd configDir
      ((blendinConfig.parsing.bind (fun p => p.translationsSavePath)).getD "")
  let projectId :=
    (blendinConfig.project.map (fun p => p.projectId)).getD "undefined"
  let getEffect :=
    Effect.apiGet
      (BLENDIN_CLI_API_URL ++ "/projects/" ++ projectId ++
        "/translations-object")
  let content :=
    match jsonLookup response.data "translations_object" with
    | some j => jsonStringifyPretty j
    | none => "undefined"
  let translationsFilePath := pathJoin [translationsSavePath, fileName]
  let files' : String → Option String :=
    fun p => if p = translationsFilePath then some content else st.files p
  if st.dirs.contains translationsSavePath then
    ([getEffect, .writeFile translationsFilePath content],
      { files := files', dirs := st.dirs })
  else
    ([getEffect, .mkdirRecursive translationsSavePath,
        .writeFile translationsFilePath content],
      { files := files', dirs := translationsSavePath :: st.dirs })

/-! The progress poller (src/unnamed/part_000, `pollTranslationProgress`).

The source issues one status request immediately (`getAndPrintProgress()`)
then one per `setInterval(..., 1000)` tick. Each tick first checks the
`sentinel` flag and returns without a request once it is set; a response
with `translations_completed === translations_total` sets the sentinel,
clears the interval and resolves; a thrown error sets the sentinel, clears
the interval and rejects. Responses follow the documented wire shape
`{translations_total, translations_completed}` with integer counts. Tick
`n` is the request issued at `n` seconds after entry (tick 0 immediately
on entry). -/

/-- The interval between poll ticks, in milliseconds
(`setInterval(getAndPrintProgress, 1000)`). -/
def pollIntervalMs : Nat := 1000

/-- Outcome of the status request at one tick: the parsed counts, or a
thrown error (network failure, timeout, malformed response body). -/
inductive PollResponse where
  | ok (translations_completed translations_total : Int)
  | err (e : String)
deriving DecidableEq

/-- The poller's states: still polling, resolved (counts met), or rejected
(a request threw). -/
inductive PollState where
  | polling
  | completed
  | failed (e : String)
deriving DecidableEq

/-- The poller state right before tick `n`, given the per-tick request
outcomes `r` (the sentinel flag of the source is `pollStateAt ≠ polling`).
On entry (`n = 0`) the poller is polling; a tick in a terminal state does
nothing; a polling tick transitions on its response. -/
def pollStateAt (r : Nat → PollResponse) : Nat → PollState
  | 0 => .polling
  | n + 1 =>
    match pollStateAt r n with
    | .polling =>
      match r n with
      | .ok c t => if c = t then .completed else .polling
      | .err e => .failed e
    | s => s

/-- Whether the poller issues a status request at tick `n`: it does
exactly when the sentinel is still unset, i.e. the state is `polling`. -/
def requestIssuedAt (r : Nat → PollResponse) (n : Nat) : Bool :=
  pollStateAt r n == .polling

/-- The promise's settlement as of tick `n`: `none` while polling,
resolved after completion, rejected with the underlying error after a
failure. -/
def pollPromiseAt (r : Nat → PollResponse) (n : Nat) :
    Option (Except String Unit) :=
  match pollStateAt r n with
  | .polling => none
  | .completed => some (.ok ())
  | .failed e => some (.error e)

/-- From src/unnamed/part_000 (lines 284-286): the URL the poller hands to
`apiClient.authenticatedGet` for job `translationJobId` — note it already
contains BLENDIN_CLI_API_URL. -/
def pollProgressUrl (translationJobId : String) : String :=
  BLENDIN_CLI_API_URL ++ "/translation-jobs/" ++ translationJobId ++
    "/translation-progress"

/-! Locales and the file-copy routine (src/unnamed/part_000,
`getLocalesConfig` and `copySourceFilesToLocales`). `DEFAULT_FLAGS` is an
external locale-code table from the types package (not under src/); it is
carried as an explicit function parameter `flags`. -/

/-- Docusaurus i18n configuration: the default locale and the full locale
list. -/
structure I18nConfig where
  defaultLocale : String
  locales : List String
deriving DecidableEq

/-- The locales block `getLocalesConfig` returns. -/
structure LocalesConfig where
  defaultLocale : String
  targetLocales : List String
deriving DecidableEq

/-- From src/unnamed/part_000: `getLocalesConfig(i18n)` maps every locale
through DEFAULT_FLAGS and filters out the default locale's flag. -/
def getLocalesConfig (flags : String → String) (i18n : I18nConfig) :
    LocalesConfig :=
  let blendinLocales := i18n.locales.map flags
  let sourceLocales :=
    blendinLocales.filter (fun locale => locale != flags i18n.defaultLocale)
  { defaultLocale := i18n.defaultLocale, targetLocales := sourceLocales }

/-- A source file paired with the plugin it belongs to
(src/unnamed/part_000 `SourceFilePathAndPluginName`). -/
structure SourceFilePathAndPluginName where
  pluginName : String
  sourceFilePath : String
deriving DecidableEq

/-- One copy performed by `copySourceFilesToLocales`: the locale it is
for, the `mkdirSync(destinationDir, {recursive: true})` target, and the
`copyFileSync(src, dest)` pair. -/
structure CopyAction where
  locale : String
  destinationDir : String
  src : String
  dest : String
deriving DecidableEq

/-- JS `String.prototype.toLowerCase` (ASCII case mapping, which covers
every locale code this program handles). -/
def toLowerCase (s : String) : String :=
  String.mk (s.data.map Char.toLower)

/-- Node `path.basename`: everything after the last POSIX separator (on
the normal, non-trailing-slash paths this program produces). -/
def basename (p : String) : String :=
  String.mk (p.data.foldl
    (fun acc c => if c = '/' then [] else acc ++ [c]) [])

/-- From src/unnamed/part_000: `copySourceFilesToLocales({sourceFiles,
targetLocales, defaultLocale})`. For each target locale (skipping one
equal to DEFAULT_FLAGS[defaultLocale]) and each source file it creates
`i18n/<lowercased locale>/<pluginName>/current` and copies the file there
under its basename. (The source also computes unused locals
isBlogFile/isPageFile; they produce no effect.) Returns the ordered copy
actions. -/
def copySourceFilesToLocales (flags : String → String)
    (sourceFiles : List SourceFilePathAndPluginName)
    (targetLocales : List String) (defaultLocale : String) :
    List CopyAction :=
  (targetLocales.filter (fun locale => locale != flags defaultLocale)).flatMap
    (fun locale =>
      sourceFiles.map (fun file =>
        let fileName := basename file.sourceFilePath
        let destinationDir :=
          pathJoin ["i18n", toLowerCase locale, file.pluginName, "current"]
        { locale := locale
          destinationDir := destinationDir
          src := file.sourceFilePath
          dest := pathJoin [destinationDir, fileName] }))

/-- Apply one copy action to the file-system state: `mkdirSync(dir,
{recursive: true})` then `copyFileSync(src, dest)` (the destination takes
the source's content as read at the moment of the copy). -/
def applyCopyAction (st : FsState) (a : CopyAction) : FsState :=
  { files := fun p => if p = a.dest then st.files a.src else st.files p
    dirs := a.destinationDir :: st.dirs }

/-- Run a list of copy actions in order. -/
def applyCopyActions (st : FsState) (actions : List CopyAction) : FsState :=
  actions.foldl applyCopyAction st

/-! Concrete fixtures used by witnesses and counterexamples. -/

/-- A transport double that never settles. -/
def silentTransport : Transport := fun _ => .silent

/-- A plain 200 response with an empty JSON object body. -/
def okJsonResponse : HttpResponse :=
  { bodyJson := .ok (.obj []), status := 200, statusText := "OK", headers := [] }

/-- A transport double that responds immediately with `r`. -/
def immediateTransport (r : HttpResponse) : Transport :=
  fun _ => .respondsAt 0 r

/-- Stub status-request outcomes (1,3), (2,3), (3,3), (3,3), ... -/
def pollStub1 : Nat → PollResponse
  | 0 => .ok 1 3
  | 1 => .ok 2 3
  | _ => .ok 3 3

/-- Stub status-request outcomes: (1,3), then every later call throws. -/
def pollStub2 : Nat → PollResponse
  | 0 => .ok 1 3
  | _ => .err "boom"

/-- A sample configuration with two source files. -/
def sampleConfig : BlendinConfig :=
  { project := some { projectId := "p-1", apiToken := "tok-1" }
    locales := some { defaultLocale := "en", sourceLocale := some "en",
                      targetLocales := ["fr", "es"] }
    parsing := some { sourceFilePaths := ["/docs/a.md", "/docs/b.md"]
                      translationsSavePath := some "out" } }

/-- A sample read file system: the two configured files have distinct
(trimmed) contents. -/
def sampleFs : String → String := fun p =>
  if p = "/docs/a.md" then "abc\n" else if p = "/docs/b.md" then "abd" else ""

/-- A sample plan response. -/
def sampleResponse : FetchResponse :=
  { data := .obj [], status := 200, statusText := "OK", headers := [] }

/-- A response carrying a translations object, as returned by
GET /projects/:id/translations-object. -/
def pullResponse : FetchResponse :=
  { data := .obj [("translations_object", .obj [("k", .str "v")])]
    status := 200, statusText := "OK", headers := [] }

/-- An empty writable file-system state. -/
def emptyFsState : FsState :=
  { files := fun _ => none, dirs := [] }

/-- The destination path `copySourceFilesToLocales` computes for a file
under a locale: i18n/(lowercased locale)/(pluginName)/current joined with
the file's basename. -/
def copyDestPath (locale : String) (file : SourceFilePathAndPluginName) :
    String :=
  pathJoin [pathJoin ["i18n", toLowerCase locale, file.pluginName,
    "current"], basename file.sourceFilePath]

/-- A sample Docusaurus i18n configuration. -/
def sampleI18n : I18nConfig :=
  { defaultLocale := "en", locales := ["en", "fr"] }

/-- A sample source file under the docs plugin. -/
def sampleSourceFile : SourceFilePathAndPluginName :=
  { pluginName := "docs", sourceFilePath := "/d/a.md" }

/-- The copy action `copySourceFilesToLocales` performs for
`sampleSourceFile` under locale "fr". -/
def sampleCopyAction : CopyAction :=
  { locale := "fr", destinationDir := "i18n/fr/docs/current"
    src := "/d/a.md", dest := "i18n/fr/docs/current/a.md" }

/-- Two distinct sample source files sharing the basename doc.md under the
same plugin. -/
def docA : SourceFilePathAndPluginName :=
  { pluginName := "docs", sourceFilePath := "/a/doc.md" }

/-- See `docA`. -/
def docB : SourceFilePathAndPluginName :=
  { pluginName := "docs", sourceFilePath := "/b/doc.md" }

/-- A writable file-system state holding the two sample source files. -/
def twoFilesState : FsState :=
  { files := fun p =>
      if p = "/a/doc.md" then some "one"
      else if p = "/b/doc.md" then some "two" else none
    dirs := [] }

/-- Whether the transport settles (response or failure) strictly within the
window `w`. -/
def RespondsWithin (o : TransportOutcome) (w : Nat) : Prop :=
  (∃ t r, o = TransportOutcome.respondsAt t r ∧ t < w) ∨
    (∃ t e, o = TransportOutcome.failsAt t e ∧ t < w)

/-! Helper lemmas. -/

/-- The head of a `dropWhile` result never satisfies the predicate. -/
theorem head?_dropWhile_false {α : Type} (p : α → Bool) :
    ∀ (l : List α) {c : α}, (l.dropWhile p).head? = some c → p c = false := by
  intro l
  induction l with
  | nil => intro c h; simp [List.dropWhile] at h
  | cons a t ih =>
    intro c h
    cases hp : p a with
    | true => rw [List.dropWhile_cons, hp] at h; exact ih (by simpa using h)
    | false =>
      rw [List.dropWhile_cons, hp] at h
      simp at h
      rw [← h]
      exact hp

/-- `dropWhile` is the identity when the head does not satisfy the
predicate. -/
theorem dropWhile_eq_self_of_head {α : Type} (p : α → Bool) (l : List α)
    (h : ∀ c, l.head? = some c → p c = false) : l.dropWhile p = l := by
  cases l with
  | nil => rfl
  | cons a t =>
    have ha := h a rfl
    rw [List.dropWhile_cons, ha]
    simp

/-- Trimming a list whose first and last characters are not whitespace is
the identity. -/
theorem jsTrimList_eq_self (r : List Char)
    (hf : ∀ c, r.head? = some c → isJsWhitespace c = false)
    (hb : ∀ c, r.reverse.head? = some c → isJsWhitespace c = false) :
    jsTrimList r = r := by
  show ((r.dropWhile isJsWhitespace).reverse.dropWhile isJsWhitespace).reverse = r
  rw [dropWhile_eq_self_of_head isJsWhitespace r hf]
  rw [dropWhile_eq_self_of_head isJsWhitespace r.reverse hb]
  exact List.reverse_reverse r

/-- Trimming a character list twice is the same as trimming it once. -/
theorem jsTrimList_idem (l : List Char) :
    jsTrimList (jsTrimList l) = jsTrimList l := by
  apply jsTrimList_eq_self
  · intro c hc
    have hc' :
        ((l.dropWhile isJsWhitespace).reverse.dropWhile
          isJsWhitespace).reverse.head? = some c := hc
    cases hr :
        ((l.dropWhile isJsWhitespace).reverse.dropWhile
          isJsWhitespace).reverse with
    | nil => rw [hr] at hc'; simp at hc'
    | cons x r' =>
      rw [hr] at hc'
      simp at hc'
      have h0 :=
        List.takeWhile_append_dropWhile (p := isJsWhitespace)
          (l := (l.dropWhile isJsWhitespace).reverse)
      have h1 := congrArg List.reverse h0
      rw [List.reverse_append, List.reverse_reverse] at h1
      rw [hr] at h1
      have hx : (l.dropWhile isJsWhitespace).head? = some x := by
        rw [← h1]; rfl
      rw [← hc']
      exact head?_dropWhile_false isJsWhitespace l hx
  · intro c hc
    have hc' :
        ((l.dropWhile isJsWhitespace).reverse.dropWhile
          isJsWhitespace).reverse.reverse.head? = some c := hc
    rw [List.reverse_reverse] at hc'
    exact head?_dropWhile_false isJsWhitespace
      (l.dropWhile isJsWhitespace).reverse hc'

/-- JS `trim` is idempotent. -/
theorem jsTrim_idem (s : String) : jsTrim (jsTrim s) = jsTrim s := by
  unfold jsTrim
  exact congrArg String.mk (jsTrimList_idem s.data)

/-- The modelled digest is injective (the spec's collision-free
idealization: distinct contents yield distinct fingerprints). -/
theorem generateStringHash_injective {a b : String}
    (h : generateStringHash a = generateStringHash b) : a = b := by
  unfold generateStringHash at h
  have hd := congrArg String.data h
  rw [String.data_append, String.data_append] at hd
  exact String.ext (List.append_cancel_left hd)

/-- Claim C6: the content fingerprint computed by the metadata step is a
pure function of the trimmed file content: hashing a string and hashing
its trim agree (in particular "abc\n" and "abc" get the same fingerprint),
equal trimmed contents get equal fingerprints regardless of which path or
file system the content came from, and distinct contents such as "abc" and
"abd" get distinct fingerprints. -/
theorem C6_hash_pure_function_of_trimmed_content :
    (∀ s, fileContentHash s = fileContentHash (jsTrim s))
    ∧ fileContentHash "abc\n" = fileContentHash "abc"
    ∧ (∀ s t, jsTrim s = jsTrim t → fileContentHash s = fileContentHash t)
    ∧ (∀ (fsA fsB : String → String) (pA pB : String), fsA pA = fsB pB →
        (getFilesMetadata fsA [pA]).map (fun m => m.fileHash) =
          (getFilesMetadata fsB [pB]).map (fun m => m.fileHash))
    ∧ fileContentHash "abc" ≠ fileContentHash "abd" := by
  refine ⟨?_, by decide, ?_, ?_, by decide⟩
  · intro s
    unfold fileContentHash
    rw [jsTrim_idem]
  · intro s t h
    unfold fileContentHash
    rw [h]
  · intro fsA fsB pA pB h
    simp [getFilesMetadata, h]

/-- Witness for C6 at concrete inputs: trim-insensitivity on "abc\n" vs
"abc" and " abc ", and distinctness on "abc" vs "abd". -/
theorem C6_hash_pure_function_of_trimmed_content_witness :
    fileContentHash "abc\n" = fileContentHash "abc"
    ∧ fileContentHash "abc\n" = fileContentHash " abc "
    ∧ fileContentHash "abc" ≠ fileContentHash "abd" :=
  ⟨C6_hash_pure_function_of_trimmed_content.2.1,
    C6_hash_pure_function_of_trimmed_content.2.2.1 "abc\n" " abc " (by decide),
    C6_hash_pure_function_of_trimmed_content.2.2.2.2⟩

/-- Claim C2: the plan body built by executeTranslation has one
files_metadata entry per configured source file path, in order; entries
with distinct trimmed contents get distinct fileHash values; and
project_uuid, source_locale_iso and target_locale_isos are taken literally
from the configuration. -/
theorem C2_plan_body_from_config (cfg : BlendinConfig)
    (fs : String → String) :
    (translationJobPlanPostData cfg fs).files_metadata.length =
      ((cfg.parsing.map (fun p => p.sourceFilePaths)).getD []).length
    ∧ (∀ i (hi : i < (translationJobPlanPostData cfg fs).files_metadata.length)
        (hi' : i < ((cfg.parsing.map (fun p => p.sourceFilePaths)).getD []).length),
        ((translationJobPlanPostData cfg fs).files_metadata.get
            ⟨i, hi⟩).sourceFilePath =
          ((cfg.parsing.map (fun p => p.sourceFilePaths)).getD []).get ⟨i, hi'⟩
        ∧ ((translationJobPlanPostData cfg fs).files_metadata.get
            ⟨i, hi⟩).fileHash =
          fileContentHash
            (fs (((cfg.parsing.map (fun p => p.sourceFilePaths)).getD
              []).get ⟨i, hi'⟩)))
    ∧ (∀ p q : String, jsTrim (fs p) ≠ jsTrim (fs q) →
        fileContentHash (fs p) ≠ fileContentHash (fs q))
    ∧ (translationJobPlanPostData cfg fs).project_uuid =
        cfg.project.map (fun p => p.projectId)
    ∧ (translationJobPlanPostData cfg fs).source_locale_iso =
        cfg.locales.bind (fun l => l.sourceLocale)
    ∧ (translationJobPlanPostData cfg fs).target_locale_isos =
        cfg.locales.map (fun l => l.targetLocales) := by
  refine ⟨?_, ?_, ?_, rfl, rfl, rfl⟩
  · simp [translationJobPlanPostData, getFilesMetadata]
  · intro i hi hi'
    simp [translationJobPlanPostData, getFilesMetadata]
  · intro p q h hcontra
    exact h (by
      have := generateStringHash_injective (a := jsTrim (fs p))
        (b := jsTrim (fs q)) hcontra
      exact this)

/-- Witness for C2: with 2 configured files of distinct content the plan
body has files_metadata of length 2, the two entries carry the configured
paths in order with distinct fileHash values, and the locale fields are
the configured literals. -/
theorem C2_plan_body_from_config_witness :
    (translationJobPlanPostData sampleConfig sampleFs).files_metadata.length = 2
    ∧ ((translationJobPlanPostData sampleConfig sampleFs).files_metadata.get
        ⟨0, by decide⟩).sourceFilePath = "/docs/a.md"
    ∧ ((translationJobPlanPostData sampleConfig sampleFs).files_metadata.get
        ⟨1, by decide⟩).sourceFilePath = "/docs/b.md"
    ∧ ((translationJobPlanPostData sampleConfig sampleFs).files_metadata.get
        ⟨0, by decide⟩).fileHash ≠
      ((translationJobPlanPostData sampleConfig sampleFs).files_metadata.get
        ⟨1, by decide⟩).fileHash
    ∧ (translationJobPlanPostData sampleConfig sampleFs).source_locale_iso =
        some "en"
    ∧ (translationJobPlanPostData sampleConfig sampleFs).target_locale_isos =
        some ["fr", "es"] := by
  have h := C2_plan_body_from_config sampleConfig sampleFs
  have hlen := h.1
  refine ⟨by decide, ?_, ?_, ?_, by decide, by decide⟩
  · exact (h.2.1 0 (by decide) (by decide)).1
  · exact (h.2.1 1 (by decide) (by decide)).1
  · have h0 := (h.2.1 0 (by decide) (by decide)).2
    have h1 := (h.2.1 1 (by decide) (by decide)).2
    rw [h0, h1]
    exact h.2.2.1 "/docs/a.md" "/docs/b.md" (by decide)

/-- Claim C3: with no API token configured, authenticatedGet and
authenticatedPost resolve to the synthetic response
(data {}, status 401, statusText Unauthorized) for every path, body and
options, and the underlying transport is never invoked (the issued-request
list is empty). -/
theorem C3_no_token_unauthorized (cfg : APIClientConfig)
    (transport : Transport) (url : String) (config : Option RequestOptions)
    (data : Json) (h : cfg.apiToken = none) :
    authenticatedGet cfg transport url config =
      (.ok { data := .obj [], status := 401, statusText := "Unauthorized",
             headers := [] }, [])
    ∧ authenticatedPost cfg transport url data config =
      (.ok { data := .obj [], status := 401, statusText := "Unauthorized",
             headers := [] }, []) := by
  constructor
  · simp [authenticatedGet, h, unauthorizedResponse]
  · simp [authenticatedPost, h, unauthorizedResponse]

/-- Witness for C3: a token-less client short-circuits concretely. -/
theorem C3_no_token_unauthorized_witness :
    authenticatedGet { apiToken := none } silentTransport "/ping" none =
      (.ok { data := .obj [], status := 401, statusText := "Unauthorized",
             headers := [] }, [])
    ∧ authenticatedPost { apiToken := none } silentTransport "/ping"
        (.obj []) none =
      (.ok { data := .obj [], status := 401, statusText := "Unauthorized",
             headers := [] }, []) :=
  C3_no_token_unauthorized { apiToken := none } silentTransport "/ping" none
    (.obj []) rfl

/-- Claim C7: with a configured token, a request whose transport does not
settle within the 30000 ms window fails with the Timeout error kind, which
is distinct from the network and parse kinds; exactly one request is
handed to the transport (no automatic retry). Covers both GET and POST. -/
theorem C7_timeout_kind (tk url : String) (data : Json)
    (transport : Transport) (config : Option RequestOptions)
    (htk : tk ≠ "")
    (hg : ¬ RespondsWithin (transport (getRequest tk url config)) timeout)
    (hp : ¬ RespondsWithin (transport (postRequest tk url data config))
        timeout) :
    timeout = 30000
    ∧ authenticatedGet { apiToken := some tk } transport url config =
        (.error (.timeout "Request timed out"), [getRequest tk url config])
    ∧ authenticatedPost { apiToken := some tk } transport url data config =
        (.error (.timeout "Request timed out"),
          [postRequest tk url data config])
    ∧ (∀ m e, ClientError.timeout m ≠ ClientError.network e)
    ∧ (∀ m e, ClientError.timeout m ≠ ClientError.parse e) := by
  have hfetch : ∀ req : Request, ¬ RespondsWithin (transport req) timeout →
      fetchWithTimeout transport req timeout =
        .error (.timeout "Request timed out") := by
    intro req h
    unfold fetchWithTimeout
    cases ho : transport req with
    | respondsAt t r =>
      have ht : ¬ t < timeout := fun hlt => h (Or.inl ⟨t, r, ho, hlt⟩)
      simp [ht]
    | failsAt t e =>
      have ht : ¬ t < timeout := fun hlt => h (Or.inr ⟨t, e, ho, hlt⟩)
      simp [ht]
    | silent => rfl
  refine ⟨rfl, ?_, ?_, by simp, by simp⟩
  · unfold authenticatedGet
    simp only [Option.getD_some]
    rw [if_pos htk, hfetch (getRequest tk url config) hg]
  · unfold authenticatedPost
    simp only [Option.getD_some]
    rw [if_pos htk, hfetch (postRequest tk url data config) hp]

/-- Witness for C7: a transport that never settles causes a Timeout-kind
failure after the 30000 ms window, with exactly one transport request. -/
theorem C7_timeout_kind_witness :
    authenticatedGet { apiToken := some "tok" } silentTransport "/ping"
        none =
      (.error (.timeout "Request timed out"), [getRequest "tok" "/ping" none])
    ∧ authenticatedPost { apiToken := some "tok" } silentTransport "/ping"
        (.obj []) none =
      (.error (.timeout "Request timed out"),
        [postRequest "tok" "/ping" (.obj []) none]) := by
  have hnever : ∀ req : Request,
      ¬ RespondsWithin (silentTransport req) timeout := by
    intro req h
    rcases h with ⟨t, r, hh, _⟩ | ⟨t, e, hh, _⟩ <;>
      simp [silentTransport] at hh
  have h := C7_timeout_kind "tok" "/ping" (.obj []) silentTransport none
    (by decide) (hnever _) (hnever _)
  exact ⟨h.2.1, h.2.2.1⟩

/-- Claim C8, evaluated at the failing input (code_bug): the poller's
status request for job "job-1" hands the client a URL that already
contains the base URL, and the client prepends the base URL again, so the
request actually issued targets base ++ base ++ path — not the claimed
base ++ path with the base appearing exactly once. -/
theorem C8_poller_url_double_base :
    (authenticatedGet { apiToken := some "tok" }
        (immediateTransport okJsonResponse) (pollProgressUrl "job-1")
        none).2 =
      [getRequest "tok" (pollProgressUrl "job-1") none]
    ∧ (getRequest "tok" (pollProgressUrl "job-1") none).url =
        BLENDIN_CLI_API_URL ++ BLENDIN_CLI_API_URL ++
          "/translation-jobs/job-1/translation-progress"
    ∧ (getRequest "tok" (pollProgressUrl "job-1") none).url ≠
        BLENDIN_CLI_API_URL ++
          "/translation-jobs/job-1/translation-progress" := by
  exact ⟨rfl, rfl, by decide⟩

/-- Claim C4: the poller issues a status request immediately on entry
(tick 0) and one per fixed 1000 ms tick while polling; it transitions to
Completed exactly when a polling-state response has
translations_completed = translations_total; completion resolves the
promise; and in any terminal state no further status request is issued. -/
theorem C4_poller_completion (r : Nat → PollResponse) :
    requestIssuedAt r 0 = true
    ∧ pollIntervalMs = 1000
    ∧ (∀ n, pollStateAt r (n + 1) = .completed ↔
        (pollStateAt r n = .completed ∨
          (pollStateAt r n = .polling ∧
            ∃ c t, r n = .ok c t ∧ c = t)))
    ∧ (∀ n, pollStateAt r n = .completed →
        pollPromiseAt r n = some (.ok ()))
    ∧ (∀ n, pollStateAt r n ≠ .polling → requestIssuedAt r n = false) := by
  refine ⟨rfl, rfl, ?_, ?_, ?_⟩
  · intro n
    constructor
    · intro h
      cases hs : pollStateAt r n with
      | polling =>
        cases hr : r n with
        | ok c t =>
          by_cases hct : c = t
          · exact Or.inr ⟨rfl, c, t, rfl, hct⟩
          · rw [pollStateAt, hs, hr] at h
            simp [hct] at h
        | err e =>
          rw [pollStateAt, hs, hr] at h
          simp at h
      | completed => exact Or.inl rfl
      | failed e =>
        rw [pollStateAt, hs] at h
        simp at h
    · intro h
      rcases h with h | ⟨hs, c, t, hr, hct⟩
      · rw [pollStateAt, h]
      · rw [pollStateAt, hs, hr]
        simp [hct]
  · intro n h
    simp [pollPromiseAt, h]
  · intro n h
    simp [requestIssuedAt]
    exact h

/-- Witness for C4, at the spec's stub (1,3), (2,3), (3,3): the first
request is issued immediately, the poller is still polling on the third
call (tick 2), reaches Completed exactly after it, resolves, and issues no
request at tick 3. -/
theorem C4_poller_completion_witness :
    requestIssuedAt pollStub1 0 = true
    ∧ pollStateAt pollStub1 2 = .polling
    ∧ pollStateAt pollStub1 3 = .completed
    ∧ pollPromiseAt pollStub1 3 = some (.ok ())
    ∧ requestIssuedAt pollStub1 3 = false := by
  have h := C4_poller_completion pollStub1
  have h3 : pollStateAt pollStub1 3 = .completed :=
    (h.2.2.1 2).mpr (Or.inr ⟨by decide, 3, 3, rfl, rfl⟩)
  exact ⟨h.1, by decide, h3, h.2.2.2.1 3 h3,
    h.2.2.2.2 3 (by rw [h3]; exact fun hc => PollState.noConfusion hc)⟩

/-- Terminal poller states absorb: once the sentinel is set the state
never changes again. -/
theorem pollState_absorb (r : Nat → PollResponse) (n : Nat)
    (hs : pollStateAt r n ≠ .polling) :
    ∀ m, n ≤ m → pollStateAt r m = pollStateAt r n := by
  intro m
  induction m with
  | zero =>
    intro h
    have h0 : n = 0 := Nat.le_zero.mp h
    rw [h0]
  | succ m ih =>
    intro h
    by_cases hnm : n = m + 1
    · rw [hnm]
    · have hle : n ≤ m := by omega
      have hm := ih hle
      cases hst : pollStateAt r m with
      | polling => rw [hst] at hm; exact absurd hm.symm hs
      | completed => rw [pollStateAt, hst, ← hm, hst]
      | failed e => rw [pollStateAt, hst, ← hm, hst]

/-- Claim C5: the first status request that fails transitions the poller
immediately to Failed carrying the underlying error, rejects the promise
with it, and no status request is ever issued afterwards. -/
theorem C5_failure_halts (r : Nat → PollResponse) (n : Nat) (e : String)
    (h1 : pollStateAt r n = .polling) (h2 : r n = .err e) :
    pollStateAt r (n + 1) = .failed e
    ∧ pollPromiseAt r (n + 1) = some (.error e)
    ∧ ∀ m, n < m → requestIssuedAt r m = false := by
  have hstep : pollStateAt r (n + 1) = .failed e := by
    rw [pollStateAt, h1, h2]
  refine ⟨hstep, by simp [pollPromiseAt, hstep], ?_⟩
  intro m hm
  have habs : pollStateAt r m = .failed e := by
    have h := pollState_absorb r (n + 1)
      (by rw [hstep]; exact fun hc => PollState.noConfusion hc) m hm
    rw [h, hstep]
  simp [requestIssuedAt, habs]

/-- Witness for C5, at a stub whose second call throws: the poller reaches
Failed at tick 2, the promise rejects with the error, and no third request
is issued. -/
theorem C5_failure_halts_witness :
    pollStateAt pollStub2 2 = .failed "boom"
    ∧ pollPromiseAt pollStub2 2 = some (.error "boom")
    ∧ requestIssuedAt pollStub2 2 = false := by
  have h := C5_failure_halts pollStub2 1 "boom" (by decide) rfl
  exact ⟨h.1, h.2.1, h.2.2 2 (by decide)⟩

/-- Claim C9: the target-locale set produced by getLocalesConfig never
contains the default locale's (flag) code, and every copy performed by
copySourceFilesToLocales is for a locale different from the default's flag
— its destination directory i18n/(lowercased locale)/(pluginName)/current
is built from a non-default locale, so no file is copied into the default
locale's directory. -/
theorem C9_default_locale_excluded (flags : String → String)
    (i18n : I18nConfig) :
    flags i18n.defaultLocale ∉ (getLocalesConfig flags i18n).targetLocales
    ∧ (∀ (sourceFiles : List SourceFilePathAndPluginName)
        (targetLocales : List String) (defaultLocale : String)
        (a : CopyAction),
        a ∈ copySourceFilesToLocales flags sourceFiles targetLocales
            defaultLocale →
        a.locale ≠ flags defaultLocale
        ∧ ∃ file, file ∈ sourceFiles
            ∧ a.destinationDir =
              pathJoin ["i18n", toLowerCase a.locale, file.pluginName,
                "current"]) := by
  constructor
  · intro hmem
    rw [getLocalesConfig] at hmem
    simp [List.mem_filter] at hmem
  · intro sourceFiles targetLocales defaultLocale a ha
    rw [copySourceFilesToLocales] at ha
    simp [List.mem_filter] at ha
    obtain ⟨locale, ⟨hlmem, hlne⟩, file, hfmem, hfa⟩ := ha
    subst hfa
    exact ⟨hlne, file, hfmem, rfl⟩

/-- Witness for C9: with identity flags, default locale "en" and locales
["en", "fr"], "en" is not a target locale, and the one copy performed for
target "fr" is for a locale different from "en". -/
theorem C9_default_locale_excluded_witness :
    "en" ∉ (getLocalesConfig id sampleI18n).targetLocales
    ∧ sampleCopyAction.locale ≠ "en" := by
  have h := C9_default_locale_excluded id sampleI18n
  refine ⟨h.1, ?_⟩
  have h2 := h.2 [sampleSourceFile] ["fr"] "en" sampleCopyAction (by decide)
  exact h2.1

/-- Claim C10: every copy of copySourceFilesToLocales targets
i18n/(lowercased locale)/(pluginName)/current/(basename of the source),
keyed only by the basename; two distinct source files with the same
basename, plugin name and target locale are both written to the same
destination path, the later copy overwriting the earlier, while the
source files themselves (when distinct from that destination) keep their
contents. -/
theorem C10_copy_basename_overwrite (flags : String → String)
    (f1 f2 : SourceFilePathAndPluginName) (locale defaultLocale : String)
    (st : FsState)
    (hpl : f2.pluginName = f1.pluginName)
    (hbase : basename f2.sourceFilePath = basename f1.sourceFilePath)
    (hloc : locale ≠ flags defaultLocale)
    (hd1 : copyDestPath locale f1 ≠ f1.sourceFilePath)
    (hd2 : copyDestPath locale f1 ≠ f2.sourceFilePath) :
    (∀ (sourceFiles : List SourceFilePathAndPluginName)
      (targetLocales : List String) (d : String) (a : CopyAction),
      a ∈ copySourceFilesToLocales flags sourceFiles targetLocales d →
      ∃ file, file ∈ sourceFiles ∧ a.src = file.sourceFilePath
        ∧ a.dest = copyDestPath a.locale file)
    ∧ (copySourceFilesToLocales flags [f1, f2] [locale]
          defaultLocale).map (fun a => a.dest) =
        [copyDestPath locale f1, copyDestPath locale f1]
    ∧ (applyCopyActions st (copySourceFilesToLocales flags [f1, f2]
          [locale] defaultLocale)).files (copyDestPath locale f1) =
        st.files f2.sourceFilePath
    ∧ (applyCopyActions st (copySourceFilesToLocales flags [f1, f2]
          [locale] defaultLocale)).files f1.sourceFilePath =
        st.files f1.sourceFilePath
    ∧ (applyCopyActions st (copySourceFilesToLocales flags [f1, f2]
          [locale] defaultLocale)).files f2.sourceFilePath =
        st.files f2.sourceFilePath := by
  have hdest2 : copyDestPath locale f2 = copyDestPath locale f1 := by
    rw [copyDestPath, copyDestPath, hpl, hbase]
  have htrace : copySourceFilesToLocales flags [f1, f2] [locale]
      defaultLocale =
      [{ locale := locale,
         destinationDir := pathJoin ["i18n", toLowerCase locale,
           f1.pluginName, "current"],
         src := f1.sourceFilePath, dest := copyDestPath locale f1 },
       { locale := locale,
         destinationDir := pathJoin ["i18n", toLowerCase locale,
           f2.pluginName, "current"],
         src := f2.sourceFilePath, dest := copyDestPath locale f1 }] := by
    rw [copySourceFilesToLocales]
    rw [copyDestPath] at hdest2
    simp [hloc, copyDestPath]
    exact hdest2
  refine ⟨?_, ?_, ?_, ?_, ?_⟩
  · intro sourceFiles targetLocales d a ha
    rw [copySourceFilesToLocales] at ha
    simp [List.mem_filter] at ha
    obtain ⟨locale', ⟨hlmem, hlne⟩, file, hfmem, hfa⟩ := ha
    subst hfa
    exact ⟨file, hfmem, rfl, rfl⟩
  · rw [htrace]; rfl
  · rw [htrace]
    simp [applyCopyActions, applyCopyAction]
    intro hc
    exact absurd hc.symm hd2
  · rw [htrace]
    simp [applyCopyActions, applyCopyAction]
    intro hc hc2
    exact absurd hc.symm hd1
  · rw [htrace]
    simp [applyCopyActions, applyCopyAction]
    intro hc
    exact absurd hc.symm hd2

/-- Witness for C10: two distinct files both named doc.md under plugin
"docs", copied for locale "fr": both land on
i18n/fr/docs/current/doc.md, the final content there is the second file's,
and both source files keep their contents. -/
theorem C10_copy_basename_overwrite_witness :
    (copySourceFilesToLocales id [docA, docB] ["fr"] "en").map
        (fun a => a.dest) =
      ["i18n/fr/docs/current/doc.md", "i18n/fr/docs/current/doc.md"]
    ∧ (applyCopyActions twoFilesState (copySourceFilesToLocales id
        [docA, docB] ["fr"] "en")).files "i18n/fr/docs/current/doc.md" =
      some "two"
    ∧ (applyCopyActions twoFilesState (copySourceFilesToLocales id
        [docA, docB] ["fr"] "en")).files "/a/doc.md" = some "one"
    ∧ (applyCopyActions twoFilesState (copySourceFilesToLocales id
        [docA, docB] ["fr"] "en")).files "/b/doc.md" = some "two" := by
  have h := C10_copy_basename_overwrite id docA docB "fr" "en"
    twoFilesState (by decide) (by decide) (by decide) (by decide) (by decide)
  have e : copyDestPath "fr" docA = "i18n/fr/docs/current/doc.md" := by
    decide
  rw [e] at h
  have ha : twoFilesState.files docA.sourceFilePath = some "one" := by decide
  have hb : twoFilesState.files docB.sourceFilePath = some "two" := by decide
  exact ⟨h.2.1, h.2.2.1.trans hb, h.2.2.2.1.trans ha, h.2.2.2.2.trans hb⟩

/-- Claim C1, counterexample at a concrete configuration: executeTranslation
does proceed past the plan submission (the trace continues with two log
effects after the plan POST) yet it creates no translation job, issues no
status or translations GET, and performs no directory creation or file
write — the create/poll/pull flow of the claim never runs. -/
theorem C1_counterexample_plan_submission_only :
    (executeTranslation sampleConfig sampleFs sampleResponse).length = 3
    ∧ (executeTranslation sampleConfig sampleFs sampleResponse).head? =
        some (.apiPost "/translation-jobs/generate-plan-from-entire-files"
          (translationJobPlanPostData sampleConfig sampleFs))
    ∧ (executeTranslation sampleConfig sampleFs sampleResponse).all
        (fun e => match e with
          | .apiGet _ => false
          | .mkdirRecursive _ => false
          | .writeFile _ _ => false
          | _ => true) = true
    ∧ ((executeTranslation sampleConfig sampleFs sampleResponse).drop
        1).all
        (fun e => match e with
          | .apiPost _ _ => false
          | _ => true) = true :=
  ⟨rfl, rfl, rfl, rfl⟩

/-- Claim C1 as amended: executeTranslation never proceeds to job
creation — for every configuration its effect trace is exactly the plan
POST followed by the two console logs (the confirm/create/poll/pull steps
are commented out in the source); and the standalone pullTranslations,
when its response carries a translations_object, GETs it and persists it
to the resolved save path as pretty-printed JSON under translations.json,
creating the destination directory exactly when it is absent. -/
theorem C1_plan_only_and_pull_persists :
    (∀ (cfg : BlendinConfig) (fs : String → String) (resp : FetchResponse),
      executeTranslation cfg fs resp =
        [Effect.apiPost "/translation-jobs/generate-plan-from-entire-files"
            (translationJobPlanPostData cfg fs),
          Effect.consoleLog "GOT TRANSLATION JOB PLAN RESPONSE",
          Effect.consoleLogJson resp.data])
    ∧ (∀ (cwd configDir : String) (cfg : BlendinConfig) (st : FsState)
        (resp : FetchResponse) (j : Json),
        jsonLookup resp.data "translations_object" = some j →
        (pullTranslations cwd configDir cfg st resp).1 =
          (if st.dirs.contains (pathResolve cwd configDir
              ((cfg.parsing.bind
                (fun p => p.translationsSavePath)).getD "")) then
            [Effect.apiGet (BLENDIN_CLI_API_URL ++ "/projects/" ++
                ((cfg.project.map (fun p => p.projectId)).getD
                  "undefined") ++ "/translations-object"),
              Effect.writeFile (pathJoin [pathResolve cwd configDir
                  ((cfg.parsing.bind
                    (fun p => p.translationsSavePath)).getD ""),
                  "translations.json"]) (jsonStringifyPretty j)]
          else
            [Effect.apiGet (BLENDIN_CLI_API_URL ++ "/projects/" ++
                ((cfg.project.map (fun p => p.projectId)).getD
                  "undefined") ++ "/translations-object"),
              Effect.mkdirRecursive (pathResolve cwd configDir
                ((cfg.parsing.bind
                  (fun p => p.translationsSavePath)).getD "")),
              Effect.writeFile (pathJoin [pathResolve cwd configDir
                  ((cfg.parsing.bind
                    (fun p => p.translationsSavePath)).getD ""),
                  "translations.json"]) (jsonStringifyPretty j)])
        ∧ (pullTranslations cwd configDir cfg st resp).2.dirs.contains
            (pathResolve cwd configDir
              ((cfg.parsing.bind
                (fun p => p.translationsSavePath)).getD "")) = true
        ∧ (pullTranslations cwd configDir cfg st resp).2.files
            (pathJoin [pathResolve cwd configDir
              ((cfg.parsing.bind
                (fun p => p.translationsSavePath)).getD ""),
              "translations.json"]) = some (jsonStringifyPretty j)) := by
  constructor
  · intro cfg fs resp
    rfl
  · intro cwd configDir cfg st resp j hj
    rw [pullTranslations]
    rw [hj]
    by_cases hc : pathResolve cwd configDir
        ((cfg.parsing.bind (fun p => p.translationsSavePath)).getD "") ∈
        st.dirs
    · simp [hc]
    · simp [hc]

/-- Witness for the amended C1: at a concrete configuration the trace is
the plan POST plus the two logs, and a concrete pull with an absent save
directory creates it and writes the pretty-printed translations object. -/
theorem C1_plan_only_and_pull_persists_witness :
    executeTranslation sampleConfig sampleFs sampleResponse =
      [Effect.apiPost "/translation-jobs/generate-plan-from-entire-files"
          (translationJobPlanPostData sampleConfig sampleFs),
        Effect.consoleLog "GOT TRANSLATION JOB PLAN RESPONSE",
        Effect.consoleLogJson (.obj [])]
    ∧ (pullTranslations "/proj" "cfg" sampleConfig emptyFsState
        pullResponse).2.files "/proj/cfg/out/translations.json" =
      some (jsonStringifyPretty (.obj [("k", .str "v")]))
    ∧ (pullTranslations "/proj" "cfg" sampleConfig emptyFsState
        pullResponse).2.dirs.contains "/proj/cfg/out" = true := by
  have h1 := C1_plan_only_and_pull_persists.1 sampleConfig sampleFs
    sampleResponse
  have h2 := C1_plan_only_and_pull_persists.2 "/proj" "cfg" sampleConfig
    emptyFsState pullResponse (.obj [("k", .str "v")]) rfl
  exact ⟨h1, h2.2.2, h2.2.1⟩

end Blendin
